import Mathlib

/-
Verification development for the structarg argument-binding engine
(package `structarg`, with its typed-coercion helper package `gotypes`).

The Go source is shallowly embedded below:
  * machine integers are modelled as Nat / Int with explicit `% 2^w`
    truncation where the Go code truncates (reflect's SetInt/SetUint and
    the `uintN(...)` / `intN(...)` casts);
  * `reflect.Value` slots become the explicit `GoValue` inductive;
  * fallible Go functions returning `error` become `Except Err`;
  * stateful code (the parser mutating argument slots in place) is
    modelled by explicit state passing: functions return the updated
    parser / argument;
  * standard-library functions (`strconv`, `strings`) are modelled from
    their documented behaviour, restricted to ASCII where the Go code
    works on bytes;
  * floating-point kinds are outside the model (no claim touches them);
  * file I/O is out of scope: `ParseFile` is modelled on the list of
    lines the scanner would produce; `os.Getenv` is an explicit
    environment parameter.
-/

set_option autoImplicit false

namespace Structarg

/-- Error values produced by the embedded code.  One constructor per
`fmt.Errorf` / `strconv` error site; message formatting is abstracted to
the constructor plus the payloads the format string interpolates. -/
inductive Err where
  /-- strconv: invalid syntax -/
  | syntaxError (s : String)
  /-- strconv: value out of range -/
  | rangeError (s : String)
  /-- gotypes.ParseValue default case: "Cannot parse %s to %s" -/
  | cannotParse (s : String)
  /-- gotypes.SetValue default case: "Unsupported type: %s" -/
  | unsupportedType
  /-- gotypes.AppendValue: "Cannot append to non-slice type" -/
  | cannotAppend
  /-- addArgument: "A positional non-optional argument should not set default value" -/
  | defaultOnPositional
  /-- addArgument: "Unknown nargs pattern %s" -/
  | unknownNargs (s : String)
  /-- AddArgument: "Cannot append positional argument after an array positional argument" -/
  | afterMulti
  /-- AddArgument: "Cannot append positional argument after a subcommand argument" -/
  | afterSubcommand
  /-- AddArgument: "Cannot append positional argument after an optional positional argument" -/
  | afterOptional
  /-- SetValue choice check: "Unknown argument %s for %s%s" -/
  | unknownArgFor (val : String) (tok : String)
  /-- ParseArgs: "Missing arguments for %s" -/
  | missingArg (tok : String)
  /-- ParseArgs: "Unknown optional argument %s" -/
  | unknownOptional (tok : String)
  /-- ParseArgs: "Unknown positional argument %s" -/
  | unknownPositional (tok : String)
  /-- ParseArgs: "Not enough arguments" -/
  | notEnough
  /-- SingleArgument.Validate: "Non-optional argument %s not set" -/
  | notSet (tok : String)
  /-- MultiArgument.Validate: "Argument count requires at least %d" -/
  | atLeast (n : Int)
  /-- MultiArgument.Validate: "Argument count requires at most %d" -/
  | atMost (n : Int)
  /-- validateArgs wrapping: "%s error: %s" -/
  | wrapped (tok : String) (e : Err)
  /-- ParseFile: "Misformated line: %s" -/
  | misformatted (line : String)
  /-- model artefact: Go would dereference a nil *ArgumentParser here
  (subcommand value in the choice set but not in the registry) -/
  | nilSubParser
  deriving Repr, DecidableEq

/-- The scalar kinds of the gotypes closed type set that the claims
exercise (floating-point kinds omitted, see header).  `i w` / `u w` are
the signed/unsigned kinds of bit width `w`; Go's `int`/`uint` are the
64-bit widths on the platforms the code targets. -/
inductive GoScalarKind where
  | bool
  | i (w : Nat)
  | u (w : Nat)
  | str
  deriving Repr, DecidableEq

/-- A `reflect.Value` slot: a typed Go value.  `slice`/`array` carry the
element kind; `array` also carries the declared length. -/
inductive GoValue where
  | bool (b : Bool)
  | int (w : Nat) (v : Int)
  | uint (w : Nat) (v : Nat)
  | str (s : String)
  | slice (k : GoScalarKind) (xs : List GoValue)
  | array (k : GoScalarKind) (n : Nat) (xs : List GoValue)
  deriving Repr

/-- Value of a decimal digit string (caller guarantees digits). -/
def digitsToNat (cs : List Char) : Nat :=
  cs.foldl (fun a c => a * 10 + (c.toNat - 48)) 0

/-- strconv.ParseUint(s, 10, 64): base-10 digits only (no sign), value
must fit in 64 bits, otherwise a range error; empty or non-digit input
is a syntax error. -/
def parseUint64 (s : String) : Except Err Nat :=
  let cs := s.data
  if cs.isEmpty then .error (.syntaxError s)
  else if cs.all (·.isDigit) then
    let v := digitsToNat cs
    if v < 2 ^ 64 then .ok v else .error (.rangeError s)
  else .error (.syntaxError s)

/-- strconv.ParseInt(s, 10, 64): optional single sign then digits;
value must lie in [-2^63, 2^63-1], otherwise a range error. -/
def parseInt64 (s : String) : Except Err Int :=
  match s.data with
  | [] => .error (.syntaxError s)
  | c :: rest =>
    let neg : Bool := c = '-'
    let digits := if c = '-' || c = '+' then rest else c :: rest
    if digits.isEmpty then .error (.syntaxError s)
    else if digits.all (·.isDigit) then
      let v : Int := (digitsToNat digits : Nat)
      let v := if neg then -v else v
      if -(2 ^ 63) ≤ v ∧ v ≤ 2 ^ 63 - 1 then .ok v else .error (.rangeError s)
    else .error (.syntaxError s)

/-- strconv.ParseBool: accepts exactly these literals. -/
def goParseBool (s : String) : Except Err Bool :=
  if s = "1" ∨ s = "t" ∨ s = "T" ∨ s = "true" ∨ s = "TRUE" ∨ s = "True" then .ok true
  else if s = "0" ∨ s = "f" ∨ s = "F" ∨ s = "false" ∨ s = "FALSE" ∨ s = "False" then .ok false
  else .error (.syntaxError s)

/-- Truncation performed by Go's `uintN(x)` conversion and by
reflect.Value.SetUint into an N-bit slot. -/
def wrapUint (w : Nat) (v : Nat) : Nat := v % 2 ^ w

/-- Two's-complement truncation performed by Go's `intN(x)` conversion
and by reflect.Value.SetInt into an N-bit slot. -/
def wrapInt (w : Nat) (v : Int) : Int :=
  (v + 2 ^ (w - 1)) % 2 ^ w - 2 ^ (w - 1)

namespace gotypes

/-- gotypes.ParseValue restricted to scalar target types (the switch
cases of the source; non-scalar types fall to the default error case,
handled by `parseValueT` below).  Note the source parses signed and
unsigned integers with strconv bit size 64 regardless of the target
width, then converts with `intN(...)` / `uintN(...)`, which truncates. -/
def parseValueScalar (k : GoScalarKind) (val : String) : Except Err GoValue :=
  match k with
  | .bool => (goParseBool val).map GoValue.bool
  | .i w => (parseInt64 val).map (fun v => GoValue.int w (wrapInt w v))
  | .u w => (parseUint64 val).map (fun v => GoValue.uint w (wrapUint w v))
  | .str => .ok (.str val)

/-- gotypes.SetValue: switch on the slot's type; integer slots are
written through reflect SetInt/SetUint after a width-64 strconv parse
(SetInt/SetUint truncate to the slot's width).  Slice/array slots hit
the default "Unsupported type" case. -/
def setValue (slot : GoValue) (val : String) : Except Err GoValue :=
  match slot with
  | .bool _ => (goParseBool val).map GoValue.bool
  | .int w _ => (parseInt64 val).map (fun v => GoValue.int w (wrapInt w v))
  | .uint w _ => (parseUint64 val).map (fun v => GoValue.uint w (wrapUint w v))
  | .str _ => .ok (.str val)
  | .slice _ _ => .error .unsupportedType
  | .array _ _ _ => .error .unsupportedType

/-- gotypes.SliceBaseType: element kind for slice types only; arrays
and scalars yield nil. -/
def sliceBaseType : GoValue → Option GoScalarKind
  | .slice k _ => some k
  | _ => none

/-- gotypes.AppendValue: append a parsed element to a slice slot;
non-slice slots (including fixed-size arrays) fail. -/
def appendValue (slot : GoValue) (val : String) : Except Err GoValue :=
  match slot with
  | .slice k xs =>
    match parseValueScalar k val with
    | .error e => .error e
    | .ok v => .ok (.slice k (xs ++ [v]))
  | _ => .error .cannotAppend

end gotypes

/-- structarg.isUpperChar: ASCII upper-case test. -/
def isUpperChar (c : Char) : Bool := 'A' ≤ c && c ≤ 'Z'

/-- Go `c - 'A' + 'a'` (lower-case an ASCII letter; identity otherwise,
used only under an `isUpperChar` guard in the source). -/
def goLowerChar (c : Char) : Char :=
  if isUpperChar c then Char.ofNat (c.toNat + 32) else c

/-- strings.ToUpper restricted to ASCII (the inputs the claims quantify
over are ASCII identifiers; Go works on the same letters there). -/
def goUpperChar (c : Char) : Char :=
  if 'a' ≤ c && c ≤ 'z' then Char.ofNat (c.toNat - 32) else c

/-- strings.ToUpper on a whole string (ASCII model). -/
def goToUpper (s : String) : String := ⟨s.data.map goUpperChar⟩

/-- Body of splitCamelString's loop for positions `i > 0`; `prev` is the
input byte at `i-1`.  (`buf.Len() > 0` in the source is equivalent to
`i > 0` since every iteration writes at least one byte.) -/
def splitCamelAux : Char → List Char → List Char
  | _, [] => []
  | prev, c :: rest =>
    (if isUpperChar c then
      (if !isUpperChar prev && prev ≠ '-' then ['-', goLowerChar c] else [goLowerChar c])
    else if c = '_' then ['-']
    else [c]) ++ splitCamelAux c rest

/-- splitCamelString's loop over all positions (first byte never gets a
separator because the buffer is still empty). -/
def splitCamelChars : List Char → List Char
  | [] => []
  | c :: rest =>
    (if isUpperChar c then [goLowerChar c] else if c = '_' then ['-'] else [c])
      ++ splitCamelAux c rest

/-- structarg.splitCamelString: identity on strings equal to their own
upper-casing; otherwise the camel-to-kebab rewrite above. -/
def splitCamelString (s : String) : String :=
  if goToUpper s = s then s else ⟨splitCamelChars s.data⟩

/-- Default positional-vs-optional classification derived from the field
identifier in addArgument (`f.Name == strings.ToUpper(f.Name)`). -/
def defaultPositional (name : String) : Bool := name = goToUpper name

/-- Modelled from the claim's wording (spec §4.1 / §8, C8), for
comparison with `splitCamelString`: lower-case every character and
insert a separator exactly at case-transition boundaries, i.e. before
an upper-case character whose predecessor exists and is not upper-case. -/
def camelHyphenAux : Char → List Char → List Char
  | _, [] => []
  | prev, c :: rest =>
    (if isUpperChar c && !isUpperChar prev then ['-', goLowerChar c] else [goLowerChar c])
      ++ camelHyphenAux c rest

/-- Modelled from the claim's wording (see `camelHyphenAux`): the whole
hyphenated-lower-case derivation, no separator before the first char. -/
def camelHyphen : List Char → List Char
  | [] => []
  | c :: rest => goLowerChar c :: camelHyphenAux c rest

mutual
/-- The reflect-level type of a target field: one of the gotypes scalar
kinds, a slice or fixed-size array of a scalar kind, or a nested struct. -/
inductive GoType where
  | scalar (k : GoScalarKind)
  | sliceT (k : GoScalarKind)
  | arrayT (k : GoScalarKind) (n : Nat)
  | structT (fields : Fields)

/-- A struct's field list (own inductive so the mutual recursion over
the field tree stays structural). -/
inductive Fields where
  | nil
  | cons (f : StructField) (rest : Fields)

/-- One annotated target field: identifier, struct tags (association
list; `Tag.Get` of an absent key is ""), and type. -/
inductive StructField where
  | mk (name : String) (tags : List (String × String)) (type : GoType)
end

/-- Field identifier accessor. -/
def StructField.name : StructField → String
  | .mk n _ _ => n

/-- Field tag-list accessor. -/
def StructField.tags : StructField → List (String × String)
  | .mk _ t _ => t

/-- Field type accessor. -/
def StructField.type : StructField → GoType
  | .mk _ _ tp => tp

/-- reflect.StructTag.Get: value of a tag key, "" when absent. -/
def tagGet (tags : List (String × String)) (key : String) : String :=
  match tags.find? (fun kv => kv.1 = key) with
  | some kv => kv.2
  | none => ""

/-- The zero reflect value a freshly allocated target field holds. -/
def zeroScalar : GoScalarKind → GoValue
  | .bool => .bool false
  | .i w => .int w 0
  | .u w => .uint w 0
  | .str => .str ""

/-- Zero value of a (non-struct) field type. -/
def zeroValue : GoType → GoValue
  | .scalar k => zeroScalar k
  | .sliceT k => .slice k []
  | .arrayT k n => .array k n (List.replicate n (zeroScalar k))
  | .structT _ => .str ""

/-- gotypes.ParseValue on a full field type: only the scalar types are
switch cases; everything else hits the default "Cannot parse" error. -/
def parseValueT (tp : GoType) (val : String) : Except Err GoValue :=
  match tp with
  | .scalar k => gotypes.parseValueScalar k val
  | _ => .error (.cannotParse val)

/-- strings.Split on '|' (empty parts preserved), on char lists. -/
def splitPipeAux : List Char → List Char → List (List Char)
  | acc, [] => [acc.reverse]
  | acc, c :: rest =>
    if c = '|' then acc.reverse :: splitPipeAux [] rest
    else splitPipeAux (c :: acc) rest

/-- strings.Split(s, "|") as strings. -/
def splitPipe (s : String) : List String :=
  (splitPipeAux [] s.data).map (⟨·⟩)

/-- Default-value resolution loop of addArgument: walk the pipe-separated
candidates; a candidate starting with '$' is replaced by the environment
value of its name (all leading '$' stripped); stop at the first
candidate that is non-empty after that substitution, else end with the
last (empty) candidate.  (The source indexes `dv[0]`, so an empty
candidate before a non-empty one would panic; the model skips the '$'
test for an empty candidate.) -/
def resolveDefault (env : String → String) : List String → String
  | [] => ""
  | dv :: rest =>
    let dv := match dv.data with
      | '$' :: _ => env ⟨dv.data.dropWhile (· = '$')⟩
      | _ => dv
    if dv.data.isEmpty then
      match rest with
      | [] => dv
      | _ => resolveDefault env rest
    else dv

/-- The choices tag parse of addArgument: split on '|', keep non-empty. -/
def parseChoices (s : String) : List String :=
  if s.data.isEmpty then [] else (splitPipe s).filter (fun c => !c.data.isEmpty)

/-- The base argument state shared by all variants
(structarg.SingleArgument). -/
structure SingleArgument where
  token : String
  shortToken : String
  metavar : String
  help : String
  optional : Bool
  positional : Bool
  choices : List String
  useDefault : Bool
  defValue : GoValue
  value : GoValue
  isSet : Bool
  deriving Repr

mutual
/-- The polymorphic argument: scalar, multi-valued (with min/max count),
or subcommand (with its name → nested parser registry; the reflective
callback of SubcommandArgumentData is outside the model, see header). -/
inductive Argument where
  | single (sa : SingleArgument)
  | multi (sa : SingleArgument) (minCount maxCount : Int)
  | subcommand (sa : SingleArgument) (subs : List (String × ArgumentParser))

/-- structarg.ArgumentParser: program metadata plus the ordered optional
and positional argument sequences (each argument carries its own target
slot's current value). -/
inductive ArgumentParser where
  | mk (prog description epilog : String)
       (optArgs posArgs : List Argument)
end

/-- Parser accessor: optional-argument sequence. -/
def ArgumentParser.optArgs : ArgumentParser → List Argument
  | .mk _ _ _ o _ => o

/-- Parser accessor: positional-argument sequence. -/
def ArgumentParser.posArgs : ArgumentParser → List Argument
  | .mk _ _ _ _ p => p

/-- Parser update: replace the optional-argument sequence. -/
def ArgumentParser.withOpt : ArgumentParser → List Argument → ArgumentParser
  | .mk pr d e _ p, o => .mk pr d e o p

/-- Parser update: replace the positional-argument sequence. -/
def ArgumentParser.withPos : ArgumentParser → List Argument → ArgumentParser
  | .mk pr d e o _, p => .mk pr d e o p

/-- The embedded SingleArgument of any variant. -/
def Argument.base : Argument → SingleArgument
  | .single sa => sa
  | .multi sa _ _ => sa
  | .subcommand sa _ => sa

/-- Argument.IsMulti (overridden to true only by MultiArgument). -/
def Argument.isMulti : Argument → Bool
  | .multi _ _ _ => true
  | _ => false

/-- Argument.IsSubcommand (overridden to true only by SubcommandArgument). -/
def Argument.isSubcommand : Argument → Bool
  | .subcommand _ _ => true
  | _ => false

/-- Argument.IsOptional. -/
def Argument.isOptional (a : Argument) : Bool := a.base.optional

/-- Argument.IsPositional. -/
def Argument.isPositional (a : Argument) : Bool := a.base.positional

/-- Argument.NeedData: false exactly for boolean slots (flags). -/
def Argument.needData (a : Argument) : Bool :=
  match a.base.value with
  | .bool _ => false
  | _ => true

/-- Argument.Token(): the stored token run through splitCamelString. -/
def Argument.tokenOut (a : Argument) : String := splitCamelString a.base.token

/-- Argument.ShortToken(). -/
def Argument.shortOut (a : Argument) : String := a.base.shortToken

/-- SingleArgument.InChoices: empty choice set is unconstrained. -/
def SingleArgument.inChoices (sa : SingleArgument) (val : String) : Bool :=
  sa.choices.isEmpty || sa.choices.contains val

/-- SingleArgument.SetValue: choice check, then gotypes.SetValue into
the slot, then mark supplied.  (The error interpolates the raw token
field; the MetaVar part of the message is abstracted away.) -/
def SingleArgument.setValue (sa : SingleArgument) (val : String) : Except Err SingleArgument :=
  if sa.inChoices val then
    match gotypes.setValue sa.value val with
    | .error e => .error e
    | .ok v => .ok { sa with value := v, isSet := true }
  else .error (.unknownArgFor val sa.token)

/-- MultiArgument.SetValue: choice check, then gotypes.AppendValue, then
mark supplied (the error interpolates Token(), i.e. the split form). -/
def SingleArgument.setValueMulti (sa : SingleArgument) (val : String) : Except Err SingleArgument :=
  if sa.inChoices val then
    match gotypes.appendValue sa.value val with
    | .error e => .error e
    | .ok v => .ok { sa with value := v, isSet := true }
  else .error (.unknownArgFor val (splitCamelString sa.token))

/-- Argument.SetValue dispatch: SubcommandArgument does not override
SingleArgument.SetValue, so it takes the scalar path. -/
def Argument.setValue : Argument → String → Except Err Argument
  | .single sa, v => (sa.setValue v).map .single
  | .multi sa mn mx, v => (sa.setValueMulti v).map (.multi · mn mx)
  | .subcommand sa subs, v => (sa.setValue v).map (.subcommand · subs)

/-- SingleArgument.DoAction: on a boolean slot, set the negated default
(or true without one) and mark supplied; otherwise do nothing.  The Go
method always returns nil, so the model is total. -/
def SingleArgument.doAction (sa : SingleArgument) : SingleArgument :=
  match sa.value with
  | .bool _ =>
    let b := if sa.useDefault then
        match sa.defValue with
        | .bool db => !db
        | _ => false  -- defValue.Bool() on a non-bool would panic; unreachable
      else true
    { sa with value := .bool b, isSet := true }
  | _ => sa

/-- Argument.DoAction dispatch (no variant overrides it). -/
def Argument.doAction : Argument → Argument
  | .single sa => .single sa.doAction
  | .multi sa mn mx => .multi sa.doAction mn mx
  | .subcommand sa subs => .subcommand sa.doAction subs

/-- SingleArgument.Validate: required-unsupplied-undefaulted is an
error; unsupplied-with-default copies the default into the slot. -/
def SingleArgument.validate (sa : SingleArgument) : Except Err SingleArgument :=
  if !sa.optional && !sa.isSet && !sa.useDefault then .error (.notSet sa.token)
  else if !sa.isSet && sa.useDefault then .ok { sa with value := sa.defValue }
  else .ok sa

/-- reflect.Value.Len() of a sequence slot (the Go call panics on other
kinds; the model totalises those with 0 — every theorem that relies on
the length assumes a sequence-valued slot). -/
def GoValue.goLen : GoValue → Nat
  | .slice _ xs => xs.length
  | .array _ _ xs => xs.length
  | _ => 0

/-- The count-range checks of MultiArgument.Validate on the
post-scalar-validation state: a negative bound disables its check. -/
def multiCountCheck (sa' : SingleArgument) (minCount maxCount : Int) :
    Except Err SingleArgument :=
  if minCount ≥ 0 ∧ (sa'.value.goLen : Int) < minCount then .error (.atLeast minCount)
  else if maxCount ≥ 0 ∧ (sa'.value.goLen : Int) > maxCount then .error (.atMost maxCount)
  else .ok sa'

/-- MultiArgument.Validate: scalar validation (defaulting) first, then
the count-range checks. -/
def SingleArgument.validateMulti (sa : SingleArgument) (minCount maxCount : Int) :
    Except Err SingleArgument :=
  match sa.validate with
  | .error e => .error e
  | .ok sa' => multiCountCheck sa' minCount maxCount

/-- Argument.Validate dispatch (SubcommandArgument inherits the scalar
validation). -/
def Argument.validate : Argument → Except Err Argument
  | .single sa => (sa.validate).map .single
  | .multi sa mn mx => (sa.validateMulti mn mx).map (.multi · mn mx)
  | .subcommand sa subs => (sa.validate).map (.subcommand · subs)

/-- ArgumentParser.AddArgument: optional arguments append freely; a
positional argument is rejected after a trailing multi or subcommand
positional, or when it is required and the trailing positional is
optional. -/
def addArgumentToParser (p : ArgumentParser) (arg : Argument) : Except Err ArgumentParser :=
  if arg.isPositional then
    match p.posArgs.getLast? with
    | some last =>
      if last.isMulti then .error .afterMulti
      else if last.isSubcommand then .error .afterSubcommand
      else if last.isOptional && !arg.isOptional then .error .afterOptional
      else .ok (p.withPos (p.posArgs ++ [arg]))
    | none => .ok (p.withPos (p.posArgs ++ [arg]))
  else .ok (p.withOpt (p.optArgs ++ [arg]))

/-- The nargs-tag parse of addArgument: `*` → [0,−1], `?` → [0,1],
`+` → [1,−1], a decimal integer n → [n,n], anything else (including the
missing tag, "") is the "Unknown nargs pattern" schema error. -/
def parseNargs (nargs : String) : Except Err (Int × Int) :=
  if nargs = "*" then .ok (0, -1)
  else if nargs = "?" then .ok (0, 1)
  else if nargs = "+" then .ok (1, -1)
  else
    match parseInt64 nargs with
    | .ok n => .ok (n, n)
    | .error _ => .error (.unknownNargs nargs)

/-- ArgumentParser.addArgument: derive one argument from a field and
register it.  Mirrors the source line by line: tag reads, default
resolution through the environment, choices, name-case classification
with the optional-tag override, the default-on-required-positional
check, the subcommand flag (ParseBool, false on error), default
parsing, subcommand forcing positional+required, and variant selection
(subcommand / reflect.Array → multi with nargs bounds / scalar). -/
def addArgumentField (env : String → String) (p : ArgumentParser) (f : StructField) :
    Except Err ArgumentParser :=
  let help := tagGet f.tags "help"
  let token := if (tagGet f.tags "token").data.isEmpty then f.name else tagGet f.tags "token"
  let shorttoken := tagGet f.tags "short-token"
  let metavar := tagGet f.tags "metavar"
  let defvalTag := tagGet f.tags "default"
  let defval := if defvalTag.data.isEmpty then defvalTag
    else resolveDefault env (splitPipe defvalTag)
  let useDefault := !defval.data.isEmpty
  let choices := parseChoices (tagGet f.tags "choices")
  let positional := defaultPositional f.name
  let optional := !positional
  let optVal := tagGet f.tags "optional"
  let optional := if optVal = "true" then true else if optVal = "false" then false else optional
  if positional && !optional && useDefault then .error .defaultOnPositional
  else
    let subcommand := match goParseBool (tagGet f.tags "subcommand") with
      | .ok b => b
      | .error _ => false
    let defvalT := if useDefault then parseValueT f.type defval else .ok (.str "")
    match defvalT with
    | .error e => .error e
    | .ok defValue =>
      let positional := if subcommand then true else positional
      let optional := if subcommand then false else optional
      let sa : SingleArgument :=
        { token := token, shortToken := shorttoken, metavar := metavar, help := help
          optional := optional, positional := positional, choices := choices
          useDefault := useDefault, defValue := defValue
          value := zeroValue f.type, isSet := false }
      if subcommand then addArgumentToParser p (.subcommand sa [])
      else
        match f.type with
        | .arrayT _ _ =>
          match parseNargs (tagGet f.tags "nargs") with
          | .error e => .error e
          | .ok (mn, mx) => addArgumentToParser p (.multi sa mn mx)
        | _ => addArgumentToParser p (.single sa)

/-- ArgumentParser.addStructArgument: walk the field list; a
struct-typed field recurses — and the source `return`s the recursion's
result, so the fields declared after it are never visited; other fields
go through addArgument, aborting on error. -/
def addStructArgument (env : String → String) (p : ArgumentParser) : Fields → Except Err ArgumentParser
  | .nil => .ok p
  | .cons (.mk _ _ (.structT fs)) _ => addStructArgument env p fs
  | .cons f rest =>
    match addArgumentField env p f with
    | .error e => .error e
    | .ok p' => addStructArgument env p' rest

/-- NewArgumentParser: derive the whole schema from the target's fields
into a fresh parser. -/
def newParser (env : String → String) (prog desc epilog : String) (fields : Fields) :
    Except Err ArgumentParser :=
  addStructArgument env (.mk prog desc epilog [] []) fields

/-- SubcommandArgument.AddSubParser (modulo the reflective callback,
outside the model): register the nested parser under the command name
and grow the choice set with it. -/
def Argument.addSub (a : Argument) (cmd : String) (sub : ArgumentParser) : Argument :=
  match a with
  | .subcommand sa subs =>
    .subcommand { sa with choices := sa.choices ++ [cmd] } (subs ++ [(cmd, sub)])
  | x => x

/-- The string a subcommand slot currently holds (`this.value.String()`;
non-string slots are unreachable for subcommand arguments). -/
def GoValue.asString : GoValue → String
  | .str s => s
  | _ => ""

/-- SubcommandArgument.GetSubParser: registry lookup of the currently
selected command name. -/
def Argument.subParser : Argument → Option ArgumentParser
  | .subcommand sa subs => (subs.find? (fun kv => kv.1 = sa.value.asString)).map (·.2)
  | _ => none

/-- Store the nested parser's post-parse state back into the registry
entry of the selected command (Go mutates it in place through the
pointer held in the map). -/
def Argument.putSub (a : Argument) (sub : ArgumentParser) : Argument :=
  match a with
  | .subcommand sa subs =>
    .subcommand sa (subs.map (fun kv => if kv.1 = sa.value.asString then (kv.1, sub) else kv))
  | x => x

/-- strings.HasPrefix(s, pre). -/
def goHasPre (s pre : String) : Bool := pre.data.isPrefixOf s.data

/-- Whether an optional argument's long or short token has `tok` as a
prefix (the match test of findOptionalArgument). -/
def Argument.matchesTok (a : Argument) (tok : String) : Bool :=
  goHasPre a.tokenOut tok || goHasPre a.shortOut tok

/-- The loop of ArgumentParser.findOptionalArgument: `acc` is the
`match_arg` accumulator (with its index, for the caller's state
update); a second match returns nothing immediately. -/
def findOptGo (tok : String) : List Argument → Nat → Option (Nat × Argument) → Option (Nat × Argument)
  | [], _, acc => acc
  | a :: rest, i, acc =>
    if a.matchesTok tok then
      match acc with
      | some _ => none
      | none => findOptGo tok rest (i + 1) (some (i, a))
    else findOptGo tok rest (i + 1) acc

/-- ArgumentParser.findOptionalArgument: the unique prefix match among
the optional arguments, two or more matches — like zero — yield
nothing. -/
def findOpt (opts : List Argument) (tok : String) : Option (Nat × Argument) :=
  findOptGo tok opts 0 none

/-- strings.TrimLeft(s, "-"). -/
def trimDashes (s : String) : String := ⟨s.data.dropWhile (· = '-')⟩

/-- strings.HasPrefix(s, "-"). -/
def dashToken (s : String) : Bool :=
  match s.data with
  | '-' :: _ => true
  | _ => false

/-- validateArgs: first failing argument aborts, its error wrapped with
the argument's Token(). -/
def validateArgs : List Argument → Except Err (List Argument)
  | [] => .ok []
  | a :: rest =>
    match a.validate with
    | .error e => .error (.wrapped a.tokenOut e)
    | .ok a' =>
      match validateArgs rest with
      | .error e => .error e
      | .ok rest' => .ok (a' :: rest')

/-- ArgumentParser.Validate: positional arguments first, then optional
ones (default application updates the stored arguments). -/
def parserValidate (p : ArgumentParser) : Except Err ArgumentParser :=
  match validateArgs p.posArgs with
  | .error e => .error e
  | .ok pos' =>
    match validateArgs p.optArgs with
    | .error e => .error e
    | .ok opt' => .ok ((p.withPos pos').withOpt opt')

/-- The epilogue of ParseArgs after the token loop: "Not enough
arguments" when a required positional slot is still unfilled, else
Validate. -/
def finishParse (p : ArgumentParser) (posIdx : Nat) : Except Err ArgumentParser :=
  match p.posArgs[posIdx]? with
  | some a => if a.isOptional then parserValidate p else .error .notEnough
  | none => parserValidate p

/-- The token loop of ArgumentParser.ParseArgs.  `posIdx` is the next
unfilled positional slot.  Marker tokens go through unique-prefix
optional matching (value-consuming or flag action); other tokens fill
positional slots in order; overflow beyond the declared positionals
appends to a trailing multi positional with the append's error
discarded (the source ignores SetValue's result there), else is an
unknown-positional error unless lenient; filling a subcommand slot
hands every remaining token to the nested parser (same mode) and this
level proceeds directly to its epilogue. -/
def parseLoop (ign : Bool) : ArgumentParser → Nat → List String → Except Err ArgumentParser
  | p, posIdx, [] => finishParse p posIdx
  | p, posIdx, tok :: rest =>
    if dashToken tok then
      match findOpt p.optArgs (trimDashes tok) with
      | some (i, arg) =>
        if arg.needData then
          match rest with
          | [] => .error (.missingArg tok)
          | v :: rest' =>
            match arg.setValue v with
            | .error e => .error e
            | .ok arg' => parseLoop ign (p.withOpt (p.optArgs.set i arg')) posIdx rest'
        else
          parseLoop ign (p.withOpt (p.optArgs.set i arg.doAction)) posIdx rest
      | none =>
        if ign then parseLoop ign p posIdx rest
        else .error (.unknownOptional tok)
    else
      match p.posArgs[posIdx]? with
      | some arg =>
        match arg.setValue tok with
        | .error e => .error e
        | .ok arg' =>
          if arg'.isSubcommand then
            match arg'.subParser with
            | some sp =>
              match parseLoop ign sp 0 rest with
              | .error e => .error e
              | .ok sp' =>
                finishParse (p.withPos (p.posArgs.set posIdx (arg'.putSub sp'))) (posIdx + 1)
            | none => .error .nilSubParser
          else parseLoop ign (p.withPos (p.posArgs.set posIdx arg')) (posIdx + 1) rest
      | none =>
        match p.posArgs.getLast? with
        | some last =>
          if last.isMulti then
            match last.setValue tok with
            | .ok last' => parseLoop ign (p.withPos (p.posArgs.set (p.posArgs.length - 1) last')) posIdx rest
            | .error _ => parseLoop ign p posIdx rest
          else if ign then parseLoop ign p posIdx rest
          else .error (.unknownPositional tok)
        | none =>
          if ign then parseLoop ign p posIdx rest
          else .error (.unknownPositional tok)

/-- ArgumentParser.ParseArgs. -/
def parseArgs (p : ArgumentParser) (args : List String) (ignoreUnknown : Bool) :
    Except Err ArgumentParser :=
  parseLoop ignoreUnknown p 0 args

/-- strings.Trim(s, " ") on a char list. -/
def trimSpaces (cs : List Char) : List Char :=
  ((cs.dropWhile (· = ' ')).reverse.dropWhile (· = ' ')).reverse

/-- strings.IndexByte(line, '='), as an Option over positions. -/
def indexOfEq : List Char → Nat → Option Nat
  | [], _ => none
  | c :: rest, i => if c = '=' then some i else indexOfEq rest (i + 1)

/-- The key normalisation of ParseFile: trim spaces, underscores to
hyphens. -/
def normalizeKey (cs : List Char) : String :=
  ⟨(trimSpaces cs).map (fun c => if c = '_' then '-' else c)⟩

/-- ArgumentParser.parseKeyValue: a recognised key goes through the
argument's SetValue (its error aborts); an unrecognised key is only
reported (log.Printf) and skipped — the second component returns the
reported key to the caller of the model. -/
def parseKeyValue (p : ArgumentParser) (key val : String) :
    Except Err (ArgumentParser × Option String) :=
  match findOpt p.optArgs key with
  | some (i, arg) =>
    match arg.setValue val with
    | .error e => .error e
    | .ok arg' => .ok (p.withOpt (p.optArgs.set i arg'), none)
  | none => .ok (p, some key)

/-- ArgumentParser.ParseFile on the scanner's lines (file I/O itself is
out of scope).  A line whose '=' separator is absent or at position 0
is the fatal "Misformated line" error; otherwise the trimmed key/value
pair is applied.  Returns the parser and the reported unknown keys. -/
def parseLines (p : ArgumentParser) : List String → Except Err (ArgumentParser × List String)
  | [] => .ok (p, [])
  | line :: rest =>
    match indexOfEq line.data 0 with
    | some pos =>
      if pos > 0 then
        let key := normalizeKey (line.data.take pos)
        let val : String := ⟨trimSpaces (line.data.drop (pos + 1))⟩
        match parseKeyValue p key val with
        | .error e => .error e
        | .ok (p', rep) =>
          match parseLines p' rest with
          | .error e => .error e
          | .ok (p'', reps) => .ok (p'', rep.toList ++ reps)
      else .error (.misformatted line)
    | none => .error (.misformatted line)

/-- The invariant C7 claims the positional sequence keeps: every
non-last element is neither multi-valued nor a subcommand, and once an
optional positional appears every later one is optional. -/
def posInvariant : List Argument → Bool
  | [] => true
  | [_] => true
  | a :: b :: rest =>
    !a.isMulti && !a.isSubcommand && (!a.isOptional || b.isOptional) && posInvariant (b :: rest)

/-- The rejection condition of AddArgument for a positional `arg`: the
trailing positional is multi-valued or a subcommand, or it is optional
while `arg` is required. -/
def lastBlocks (l : List Argument) (arg : Argument) : Bool :=
  match l.getLast? with
  | some last => last.isMulti || last.isSubcommand || (last.isOptional && !arg.isOptional)
  | none => false

/-- The count-range test of claim C5: `mn ≤ n ≤ mx`, a negative bound
meaning unbounded on that side. -/
def boundsOk (mn mx : Int) (n : Nat) : Bool :=
  (decide (mn < 0) || decide (mn ≤ (n : Int))) && (decide (mx < 0) || decide ((n : Int) ≤ mx))

/-- Sequence-valued slots (the ones reflect's Len() accepts here). -/
def isSeqValue : GoValue → Bool
  | .slice _ _ => true
  | .array _ _ _ => true
  | _ => false

/-- The sequence length MultiArgument.Validate ends up checking: the
default's length when the unsupplied argument is defaulted, the slot's
current length otherwise. -/
def postDefaultLen (sa : SingleArgument) : Nat :=
  if !sa.isSet && sa.useDefault then sa.defValue.goLen else sa.value.goLen

/-- Empty environment for the concrete scenarios. -/
def demoEnv : String → String := fun _ => ""

/-- Concrete-scenario helper: a tag-free scalar argument state. -/
def mkSA (tok : String) (v : GoValue) (opt pos : Bool) : SingleArgument :=
  { token := tok, shortToken := "", metavar := "", help := ""
    optional := opt, positional := pos, choices := [], useDefault := false
    defValue := .str "", value := v, isSet := false }

/-- C1 scenario: an optional argument bound to an 8-bit unsigned slot. -/
def c1sa : SingleArgument := mkSA "level" (.uint 8 0) true false

/-- C2 scenario: a target struct whose second field is a nested struct
and whose third field (`Delta`) is declared after it. -/
def c2Fields : Fields :=
  .cons (.mk "Alpha" [] (.scalar (.i 64)))
    (.cons (.mk "Nested" [] (.structT (.cons (.mk "Gamma" [] (.scalar .str)) .nil)))
      (.cons (.mk "Delta" [] (.scalar (.i 64))) .nil))

/-- C3 scenario: a growable-slice field (with an nargs tag). -/
def c3SliceField : Fields := .cons (.mk "Files" [("nargs", "*")] (.sliceT .str)) .nil

/-- C3 scenario: a fixed-size-array field with nargs "2". -/
def c3ArrayField : Fields := .cons (.mk "Files" [("nargs", "2")] (.arrayT .str 2)) .nil

/-- C3 scenario: the argument state of a multi spec whose slot is a
fixed-size array (what the array branch of addArgument builds). -/
def c3ArrSA : SingleArgument := mkSA "Files" (.array .str 2 []) true false

/-- C4 witness scenario: two optional arguments whose derived long
tokens share the prefix "auth-". -/
def c4ArgUrl : Argument := .single (mkSA "AuthURL" (.str "") true false)

/-- C4 witness scenario: second optional argument with the shared
prefix. -/
def c4ArgKey : Argument := .single (mkSA "AuthKey" (.str "") true false)

/-- C4 witness scenario: the parser registering both. -/
def c4Parser : ArgumentParser := .mk "p" "" "" [c4ArgUrl, c4ArgKey] []

/-- C5 counterexample: a required multi-valued positional, nothing
supplied, no default, bounds [0,−1]. -/
def c5sa : SingleArgument := mkSA "FILES" (.slice .str []) false true

/-- C5 witness: an optional multi argument with two supplied values. -/
def c5wsa : SingleArgument :=
  { mkSA "files" (.slice .str [.str "a", .str "b"]) true false with isSet := true }

/-- C6 witness scenario: the nested parser registered under "run". -/
def c6SubParser : ArgumentParser :=
  .mk "p run" "" "" [.single (mkSA "force" (.bool false) true false)] []

/-- C6 witness scenario: the subcommand slot before parsing ("run" is
in the choice set because AddSubParser put it there). -/
def c6sa : SingleArgument := { mkSA "ACTION" (.str "") false true with choices := ["run"] }

/-- C6 witness scenario: the subcommand slot after consuming "run". -/
def c6sa' : SingleArgument := { c6sa with value := .str "run", isSet := true }

/-- C6 witness scenario: the registry of the subcommand argument. -/
def c6Subs : List (String × ArgumentParser) := [("run", c6SubParser)]

/-- C6 witness scenario: the outer parser with the single subcommand
positional. -/
def c6Outer : ArgumentParser := .mk "p" "" "" [] [.subcommand c6sa c6Subs]

/-- C7 witness scenario: an empty parser. -/
def c7Parser : ArgumentParser := .mk "p" "" "" [] []

/-- C7 witness scenario: a required positional argument. -/
def c7Arg : Argument := .single (mkSA "NAME" (.str "") false true)

/-- C9 scenario: a schema with one optional integer argument
`timeout`. -/
def c9Parser : ArgumentParser := .mk "p" "" "" [.single (mkSA "timeout" (.int 64 0) true false)] []

/-- C10 witness scenario: a single multi-valued positional whose choice
set is {a, b}. -/
def c10sa : SingleArgument :=
  { mkSA "FILES" (.slice .str []) false true with choices := ["a", "b"] }

/-- C10 witness scenario: the parser owning it. -/
def c10Parser : ArgumentParser := .mk "p" "" "" [] [.multi c10sa 0 (-1)]

/- ------------------------------------------------------------------
Theorems.
------------------------------------------------------------------ -/

/-- Helper: splitCamelString's loop body agrees with the claim-side
case-transition hyphenation on inputs free of '-' and '_' (the case of
plain identifiers), for any predecessor that is not '-'. -/
theorem splitCamelAux_eq_camelHyphenAux (cs : List Char) :
    ∀ prev : Char, prev ≠ '-' → '-' ∉ cs → '_' ∉ cs →
      splitCamelAux prev cs = camelHyphenAux prev cs := by
  induction cs with
  | nil => intro prev _ _ _; rfl
  | cons c rest ih =>
    intro prev hprev h1 h2
    simp only [List.mem_cons, not_or] at h1 h2
    obtain ⟨hc1, hrest1⟩ := h1
    obtain ⟨hc2, hrest2⟩ := h2
    rw [splitCamelAux, camelHyphenAux, ih c (fun h => hc1 h.symm) hrest1 hrest2]
    have hcu : c ≠ '_' := fun hh => hc2 hh.symm
    by_cases hu : isUpperChar c = true
    · simp [hu, hprev]
    · simp only [Bool.not_eq_true] at hu
      simp [hu, hcu, goLowerChar]

/-- Claim C8: for an identifier free of '-' and '_', if it equals its
own upper-casing it is left unchanged by token derivation and the
derived classification is positional; otherwise token derivation
produces exactly the claim-side hyphenated-lower-case string (separator
inserted exactly at case-transition boundaries) and the classification
is optional. -/
theorem camel_token_derivation (s : String)
    (hdash : '-' ∉ s.data) (hus : '_' ∉ s.data) :
    (goToUpper s = s → splitCamelString s = s ∧ defaultPositional s = true)
    ∧ (goToUpper s ≠ s →
        splitCamelString s = ⟨camelHyphen s.data⟩ ∧ defaultPositional s = false) := by
  constructor
  · intro h
    refine ⟨by simp [splitCamelString, h], ?_⟩
    simp [defaultPositional, h]
  · intro h
    refine ⟨?_, ?_⟩
    · rw [splitCamelString, if_neg h]
      cases hs : s.data with
      | nil => simp [camelHyphen, splitCamelChars]
      | cons c rest =>
        rw [hs] at hdash hus
        simp only [List.mem_cons, not_or] at hdash hus
        obtain ⟨hc1, hrest1⟩ := hdash
        obtain ⟨hc2, hrest2⟩ := hus
        rw [splitCamelChars, camelHyphen,
          splitCamelAux_eq_camelHyphenAux rest c (fun hh => hc1 hh.symm) hrest1 hrest2]
        have hcu : c ≠ '_' := fun hh => hc2 hh.symm
        by_cases hu : isUpperChar c = true
        · simp [hu]
        · simp only [Bool.not_eq_true] at hu
          simp [hu, hcu, goLowerChar]
    · simp only [defaultPositional, decide_eq_false_iff_not]
      exact fun a => h a.symm

/-- Claim C8 witness: "AuthURL" hyphenates to "auth-url" and is
optional; "NAME" is left unchanged and positional. -/
theorem camel_token_derivation_witness :
    (splitCamelString "AuthURL" = ⟨camelHyphen "AuthURL".data⟩
      ∧ defaultPositional "AuthURL" = false)
    ∧ (splitCamelString "NAME" = "NAME" ∧ defaultPositional "NAME" = true) :=
  ⟨(camel_token_derivation "AuthURL" (by decide) (by decide)).2 (by decide),
   (camel_token_derivation "NAME" (by decide) (by decide)).1 (by decide)⟩

/-- Claim C1 (code bug): assigning the text "300" to an 8-bit unsigned
slot does NOT fail with a range error — the coercion engine parses with
strconv bit size 64 and then truncates, silently storing 300 mod 256 =
44, both in ParseValue and through SetValue / the scalar argument
path. -/
theorem uint8_text_300_wraps_to_44 :
    gotypes.parseValueScalar (.u 8) "300" = .ok (.uint 8 44)
    ∧ gotypes.setValue (.uint 8 0) "300" = .ok (.uint 8 44)
    ∧ (Argument.single c1sa).setValue "300"
        = .ok (.single { c1sa with value := .uint 8 44, isSet := true }) :=
  ⟨rfl, rfl, rfl⟩

/-- Claim C2 (code bug): schema derivation does NOT continue with the
fields declared after a nested struct field — the source `return`s the
recursion's result, so `Delta` (declared after the nested struct) is
omitted from the derived schema: only Alpha and the nested Gamma are
registered. -/
theorem fields_after_nested_struct_dropped :
    (newParser demoEnv "prog" "" "" c2Fields).map
        (fun p => p.optArgs.map (fun a => a.base.token) ++ p.posArgs.map (fun a => a.base.token))
      = .ok ["Alpha", "Gamma"] :=
  rfl

/-- Claim C3 (code bug): a growable-slice field does NOT get a
MultiArgumentSpec — variant selection tests `Kind() == reflect.Array`
only, so the slice field becomes a scalar spec; a fixed-size-array
field does become a multi spec, but such a spec can never append a
value because gotypes.AppendValue supports only slice types. -/
theorem slice_scalar_array_multi_mismatch :
    ((newParser demoEnv "p" "" "" c3SliceField).map (fun p => p.optArgs.map Argument.isMulti)
      = .ok [false])
    ∧ ((newParser demoEnv "p" "" "" c3ArrayField).map (fun p => p.optArgs.map Argument.isMulti)
      = .ok [true])
    ∧ (Argument.multi c3ArrSA 0 (-1)).setValue "x" = .error .cannotAppend :=
  ⟨rfl, rfl, rfl⟩

/-- Helper: a line without '=' has no separator position. -/
theorem indexOfEq_eq_none (cs : List Char) :
    ∀ i : Nat, '=' ∉ cs → indexOfEq cs i = none := by
  induction cs with
  | nil => intro i _; rfl
  | cons c rest ih =>
    intro i h
    simp only [List.mem_cons, not_or] at h
    rw [indexOfEq, if_neg (fun hh => h.1 hh.symm)]
    exact ih (i + 1) h.2

/-- Claim C9: reading the lines `timeout = 30` and `unknown_key = x`
against a schema with optional integer `timeout` succeeds, stores 30 in
the timeout slot, and only reports the unknown key (normalised to
"unknown-key"); and any line containing no '=' separator aborts the
whole read with the fatal format error. -/
theorem config_file_scenario :
    ((parseLines c9Parser ["timeout = 30", "unknown_key = x"]).map
        (fun pr => (pr.1.optArgs.map (fun a => a.base.value), pr.2))
      = .ok ([.int 64 30], ["unknown-key"]))
    ∧ ∀ (p : ArgumentParser) (line : String) (rest : List String),
        '=' ∉ line.data → parseLines p (line :: rest) = .error (.misformatted line) := by
  refine ⟨rfl, ?_⟩
  intro p line rest h
  rw [parseLines, indexOfEq_eq_none line.data 0 h]

/-- Claim C9 witness: the separator-free line "timeout 30" aborts the
read. -/
theorem config_file_scenario_witness :
    parseLines c9Parser ["timeout 30"] = .error (.misformatted "timeout 30") :=
  config_file_scenario.2 c9Parser "timeout 30" [] (by decide)

/-- Claim C4: with exactly two registered optional arguments both of
whose token sets have the supplied (marker-stripped) text as a prefix,
strict-mode parsing fails — the double prefix match makes
findOptionalArgument return nothing, which ParseArgs surfaces as its
unknown-optional-argument error (the parser does not distinguish the
ambiguous case from the no-match case in the error it reports) — and
this holds for either registration order. -/
theorem ambiguous_shared_prefix_errors
    (p : ArgumentParser) (a1 a2 : Argument) (tok pre : String) (rest : List String)
    (horder : p.optArgs = [a1, a2] ∨ p.optArgs = [a2, a1])
    (hdash : dashToken tok = true) (htrim : trimDashes tok = pre)
    (hm1 : a1.matchesTok pre = true) (hm2 : a2.matchesTok pre = true) :
    parseArgs p (tok :: rest) false = .error (.unknownOptional tok) := by
  have hfind : findOpt p.optArgs (trimDashes tok) = none := by
    rw [htrim]
    rcases horder with h | h <;> rw [h] <;> simp [findOpt, findOptGo, hm1, hm2]
  rw [parseArgs, parseLoop, if_pos hdash, hfind]
  rfl

/-- Claim C4 witness: tokens "auth-url" / "auth-key" (derived from
AuthURL / AuthKey), input "--auth", both registration orders fail. -/
theorem ambiguous_shared_prefix_errors_witness :
    parseArgs c4Parser ["--auth"] false = .error (.unknownOptional "--auth")
    ∧ parseArgs (c4Parser.withOpt [c4ArgKey, c4ArgUrl]) ["--auth"] false
      = .error (.unknownOptional "--auth") :=
  ⟨ambiguous_shared_prefix_errors c4Parser c4ArgUrl c4ArgKey "--auth" "auth" []
      (Or.inl rfl) rfl rfl (by decide) (by decide),
   ambiguous_shared_prefix_errors (c4Parser.withOpt [c4ArgKey, c4ArgUrl]) c4ArgUrl c4ArgKey
      "--auth" "auth" [] (Or.inr rfl) rfl rfl (by decide) (by decide)⟩

/-- Helper: withPos leaves optArgs and sets posArgs. -/
theorem withPos_posArgs (p : ArgumentParser) (l : List Argument) :
    (p.withPos l).posArgs = l := by cases p; rfl

/-- Helper: withOpt leaves posArgs untouched. -/
theorem withOpt_posArgs (p : ArgumentParser) (l : List Argument) :
    (p.withOpt l).posArgs = p.posArgs := by cases p; rfl

/-- Helper: a blocked conjunction flipped into the invariant's
disjunction. -/
theorem bool_not_and_not : ∀ x y : Bool, (x && !y) = false → (!x || y) = true := by
  decide

/-- Helper: appending an argument that the AddArgument checks admit
preserves the positional invariant. -/
theorem posInvariant_append (arg : Argument) (l : List Argument) :
    ∀ last : Argument, l.getLast? = some last →
      posInvariant l = true → last.isMulti = false → last.isSubcommand = false →
      (last.isOptional && !arg.isOptional) = false →
      posInvariant (l ++ [arg]) = true := by
  induction l with
  | nil => intro last hlast; simp at hlast
  | cons a rest ih =>
    intro last hlast hinv hm hs ho
    cases rest with
    | nil =>
      rw [List.getLast?_singleton] at hlast
      injection hlast with ha
      subst ha
      simp only [List.cons_append, List.nil_append, posInvariant, hm, hs,
        Bool.not_false, Bool.true_and, Bool.and_true]
      exact bool_not_and_not _ _ ho
    | cons b rest' =>
      rw [List.getLast?_cons_cons] at hlast
      simp only [posInvariant, Bool.and_eq_true] at hinv
      obtain ⟨⟨⟨ha1, ha2⟩, ha3⟩, hrest⟩ := hinv
      have htail := ih last hlast hrest hm hs ho
      simp only [List.cons_append] at htail ⊢
      simp [posInvariant, ha1, ha2, ha3, htail]

/-- Claim C7: AddArgument registration succeeds exactly when the
argument is non-positional or the trailing positional admits it (not
multi-valued, not a subcommand, and not optional-before-required), and
every successful registration preserves the positional-sequence
invariant (at most one trailing multi/subcommand positional, no
required positional after an optional one). -/
theorem addArgument_positional_invariant :
    (∀ (p : ArgumentParser) (arg : Argument),
      (addArgumentToParser p arg).isOk = !(arg.isPositional && lastBlocks p.posArgs arg))
    ∧ (∀ (p : ArgumentParser) (arg : Argument) (p' : ArgumentParser),
        posInvariant p.posArgs = true → addArgumentToParser p arg = .ok p' →
        posInvariant p'.posArgs = true) := by
  constructor
  · intro p arg
    rw [addArgumentToParser, lastBlocks]
    cases hp : arg.isPositional
    · simp [Except.isOk, Except.toBool]
    · cases hl : p.posArgs.getLast? with
      | none => simp [Except.isOk, Except.toBool]
      | some last =>
        cases hm : last.isMulti
        · cases hs : last.isSubcommand
          · cases hb : last.isOptional && !arg.isOptional
            · simp [hm, hs, hb, Except.isOk, Except.toBool]
            · simp [hm, hs, hb, Except.isOk, Except.toBool]
          · simp [hm, hs, Except.isOk, Except.toBool]
        · simp [hm, Except.isOk, Except.toBool]
  · intro p arg p' hinv hok
    rw [addArgumentToParser] at hok
    cases hp : arg.isPositional
    · rw [hp] at hok
      simp only [Bool.false_eq_true, if_false, Except.ok.injEq] at hok
      subst hok
      rw [withOpt_posArgs]
      exact hinv
    · rw [hp] at hok
      simp only [if_true] at hok
      cases hl : p.posArgs.getLast? with
      | none =>
        rw [hl] at hok
        simp only [Except.ok.injEq] at hok
        subst hok
        rw [withPos_posArgs]
        have : p.posArgs = [] := by
          cases hpa : p.posArgs with
          | nil => rfl
          | cons x xs => rw [hpa] at hl; simp [List.getLast?] at hl
        rw [this]
        rfl
      | some last =>
        rw [hl] at hok
        cases hm : last.isMulti
        · cases hs : last.isSubcommand
          · cases hb : last.isOptional && !arg.isOptional
            · simp only [hm, hs, hb, Bool.false_eq_true, if_false, Except.ok.injEq] at hok
              subst hok
              rw [withPos_posArgs]
              exact posInvariant_append arg p.posArgs last hl hinv hm hs hb
            · simp [hm, hs, hb] at hok
          · simp [hm, hs] at hok
        · simp [hm] at hok

/-- Claim C7 witness: registering a required positional into an empty
parser succeeds and the resulting positional sequence satisfies the
invariant. -/
theorem addArgument_positional_invariant_witness :
    ((addArgumentToParser c7Parser c7Arg).isOk
      = !(c7Arg.isPositional && lastBlocks c7Parser.posArgs c7Arg))
    ∧ posInvariant (c7Parser.withPos [c7Arg]).posArgs = true :=
  ⟨addArgument_positional_invariant.1 c7Parser c7Arg,
   addArgument_positional_invariant.2 c7Parser c7Arg (c7Parser.withPos [c7Arg]) rfl rfl⟩

/-- Helper: the count-check portion succeeds exactly when the claim's
bounds test holds of the slot's length. -/
theorem multiCountCheck_isOk (sa' : SingleArgument) (mn mx : Int) :
    (multiCountCheck sa' mn mx).isOk = boundsOk mn mx sa'.value.goLen := by
  rw [multiCountCheck, boundsOk]
  by_cases h1 : mn ≥ 0 ∧ (sa'.value.goLen : Int) < mn
  · rw [if_pos h1]
    have e1 : decide (mn < 0) = false := by simp only [decide_eq_false_iff_not]; omega
    have e2 : decide (mn ≤ (sa'.value.goLen : Int)) = false := by
      simp only [decide_eq_false_iff_not]; omega
    simp [Except.isOk, Except.toBool, e1, e2]
  · rw [if_neg h1]
    by_cases h2 : mx ≥ 0 ∧ (sa'.value.goLen : Int) > mx
    · rw [if_pos h2]
      have e1 : decide (mx < 0) = false := by simp only [decide_eq_false_iff_not]; omega
      have e2 : decide ((sa'.value.goLen : Int) ≤ mx) = false := by
        simp only [decide_eq_false_iff_not]; omega
      simp [Except.isOk, Except.toBool, e1, e2]
    · rw [if_neg h2]
      have e1 : (decide (mn < 0) || decide (mn ≤ (sa'.value.goLen : Int))) = true := by
        simp only [Bool.or_eq_true, decide_eq_true_eq]; omega
      have e2 : (decide (mx < 0) || decide ((sa'.value.goLen : Int) ≤ mx)) = true := by
        simp only [Bool.or_eq_true, decide_eq_true_eq]; omega
      simp [Except.isOk, Except.toBool, e1, e2]

/-- Claim C5 (amended): MultiArgument validation succeeds iff the
scalar requiredness check passes (the argument is optional, was
supplied, or carries a default) AND the sequence length after default
application lies within [min,max], a negative bound meaning unbounded
on that side.  The claim's pure count iff omits the requiredness
conjunct, which the counterexample below refutes. -/
theorem multi_validate_count_iff (sa : SingleArgument) (mn mx : Int)
    (_hseq : isSeqValue sa.value = true)
    (_hdef : sa.useDefault = true → isSeqValue sa.defValue = true) :
    (sa.validateMulti mn mx).isOk
      = ((sa.optional || sa.isSet || sa.useDefault) && boundsOk mn mx (postDefaultLen sa)) := by
  rw [SingleArgument.validateMulti, SingleArgument.validate, postDefaultLen]
  cases ho : sa.optional <;> cases hs : sa.isSet <;> cases hd : sa.useDefault
  all_goals simp [ho, hs, hd, multiCountCheck_isOk]
  all_goals rfl

/-- Claim C5 counterexample: a required multi-valued positional with
bounds [0,−1] and nothing supplied has its count (0) within the claimed
range — min ≤ 0, max unbounded — yet validation fails (with the scalar
requiredness error), so the claimed "succeeds iff min ≤ count ≤ max"
is false at this input. -/
theorem required_multi_in_range_still_fails :
    boundsOk 0 (-1) (postDefaultLen c5sa) = true
    ∧ (c5sa.validateMulti 0 (-1)).isOk = false :=
  ⟨rfl, rfl⟩

/-- Claim C5 witness: an optional multi argument with two supplied
values against bounds [1,−1] (the `+` form) validates successfully. -/
theorem multi_validate_count_iff_witness :
    (c5wsa.validateMulti 1 (-1)).isOk = true := by
  rw [multi_validate_count_iff c5wsa 1 (-1) rfl (by decide)]
  rfl

/-- Claim C6: once a positional slot holding a subcommand argument is
filled with a name whose registry lookup yields a nested parser, the
whole remaining token list is handed to that nested parser in the same
strict/lenient mode, and the outer level proceeds directly to its
epilogue — its result depends on the remaining tokens only through the
nested parse, so none of them is matched or consumed again by the
outer parser. -/
theorem subcommand_delegates_rest
    (ign : Bool) (p : ArgumentParser) (posIdx : Nat) (tok : String) (rest : List String)
    (sa sa' : SingleArgument) (subs : List (String × ArgumentParser)) (sp : ArgumentParser)
    (hdash : dashToken tok = false)
    (hget : p.posArgs[posIdx]? = some (.subcommand sa subs))
    (hset : (Argument.subcommand sa subs).setValue tok = .ok (.subcommand sa' subs))
    (hsub : (Argument.subcommand sa' subs).subParser = some sp) :
    parseLoop ign p posIdx (tok :: rest) =
      match parseLoop ign sp 0 rest with
      | .error e => .error e
      | .ok sp' =>
        finishParse
          (p.withPos (p.posArgs.set posIdx ((Argument.subcommand sa' subs).putSub sp')))
          (posIdx + 1) := by
  rw [parseLoop, if_neg (by simp [hdash])]
  simp [hget, hset, hsub, Argument.isSubcommand]

/-- Claim C6 witness: parsing ["run", "--force"] against the outer
parser delegates ["--force"] to the parser registered under "run". -/
theorem subcommand_delegates_rest_witness :
    parseLoop false c6Outer 0 ["run", "--force"] =
      match parseLoop false c6SubParser 0 ["--force"] with
      | .error e => .error e
      | .ok sp' =>
        finishParse
          (c6Outer.withPos (c6Outer.posArgs.set 0 ((Argument.subcommand c6sa' c6Subs).putSub sp')))
          1 :=
  subcommand_delegates_rest false c6Outer 0 "run" ["--force"] c6sa c6sa' c6Subs c6SubParser
    rfl rfl rfl rfl

/-- Claim C10: when every declared positional slot is filled and the
last positional spec is multi-valued, a further non-marker token whose
append fails (choice violation or coercion failure) is silently
dropped: the loop continues on the remaining tokens with the parser
state unchanged, in lenient and in strict mode alike. -/
theorem overflow_multi_append_error_discarded
    (ign : Bool) (p : ArgumentParser) (posIdx : Nat) (tok : String) (rest : List String)
    (last : Argument) (e : Err)
    (hdash : dashToken tok = false)
    (hover : p.posArgs[posIdx]? = none)
    (hlast : p.posArgs.getLast? = some last)
    (hmulti : last.isMulti = true)
    (herr : last.setValue tok = .error e) :
    parseLoop ign p posIdx (tok :: rest) = parseLoop ign p posIdx rest := by
  rw [parseLoop, if_neg (by simp [hdash])]
  simp [hover, hlast, hmulti, herr]

/-- Claim C10 witness: with the multi positional's choice set {a, b}
already filled past the declared slots, the invalid overflow token "zz"
is dropped and parsing proceeds as if it had not been supplied (strict
mode). -/
theorem overflow_multi_append_error_discarded_witness :
    parseLoop false c10Parser 1 ["zz"] = parseLoop false c10Parser 1 [] :=
  overflow_multi_append_error_discarded false c10Parser 1 "zz" [] (.multi c10sa 0 (-1))
    (.unknownArgFor "zz" "FILES") rfl rfl rfl rfl rfl

end Structarg
